import Mathlib

/-!
Verification of `scim_tool` (src/scim_users_groups.py) against its
natural-language specification.

The embedding is shallow.  The HTTP layer is abstracted as a pure function
`bk : Int → Int → Option (Page α)` mapping a `(startIndex, count)` request to
either `some page` (a 2xx response with decoded JSON body) or `none`
(a `requests.exceptions.RequestException`, i.e. transport error or non-2xx
raised by `raise_for_status`).  Python `dict.get(key, default)` on optional
JSON fields is modelled by `Option` fields plus `Option.getD`.  `sys.exit(1)`
inside a library function is modelled by the `Outcome.fatal` constructor;
since the Python `while` loop has no termination guarantee, the loop is run
on explicit fuel and exhausting the fuel is `Outcome.outOfFuel`
(so "the code does not terminate on this input" is
"for every fuel the run ends in `outOfFuel`").
-/

namespace ScimTool

/-- A SCIM list-response page, as consumed by `get_all_resources`.  Every
field the Python code reads with `.get(key, default)` is `Option`-valued,
`none` meaning the key is absent from the JSON object.  `α` is the type of
the opaque resource records. -/
structure Page (α : Type) where
  schemas : Option (List String)
  totalResults : Option Int
  itemsPerPage : Option Int
  startIndex : Option Int
  Resources : Option (List α)
deriving DecidableEq, Repr

/-- Result of running a fragment of the tool: a normal value, a process
exit with code 1 (`sys.exit(1)` from inside a request helper), or fuel
exhaustion, which witnesses non-termination of the source loop. -/
inductive Outcome (α : Type) where
  | ok (val : α)
  | fatal
  | outOfFuel
deriving DecidableEq, Repr

/-- The dictionary returned by `get_all_resources` (lines 50–56 of the
source), plus an instrumentation field `requests` recording every
`(startIndex, count)` pair passed to `get_page`, in issue order. -/
structure AggPage (α : Type) where
  schemas : List String
  totalResults : Int
  Resources : List α
  itemsPerPage : Int
  startIndex : Int
  requests : List (Int × Int)
deriving DecidableEq, Repr

/-- `get_page` (source lines 9–31): issue one GET with the given
`startIndex` and `count`; a transport error or non-2xx status leads to
`sys.exit(1)`, modelled by propagating `none`. -/
def get_page (bk : Int → Int → Option (Page α)) (start_index count : Int) :
    Option (Page α) :=
  bk start_index count

/-- The `while current_index <= total_results` loop of `get_all_resources`
(source lines 44–48), run on fuel.  Each iteration issues
`get_page(..., start_index=current_index)` with the default `count=1000`,
appends the page's `Resources` (default `[]`), and advances the cursor by
`stride`, the `itemsPerPage` read from the FIRST page. -/
def pagerLoop (bk : Int → Int → Option (Page α)) (total stride : Int) :
    Nat → Int → List α → List (Int × Int) → Outcome (List α × List (Int × Int))
  | 0, _, _, _ => Outcome.outOfFuel
  | fuel + 1, idx, acc, reqs =>
    if idx ≤ total then
      match get_page bk idx 1000 with
      | none => Outcome.fatal
      | some pg =>
          pagerLoop bk total stride fuel (idx + stride)
            (acc ++ pg.Resources.getD []) (reqs ++ [(idx, 1000)])
    else Outcome.ok (acc, reqs)

/-- `get_all_resources` (source lines 33–56): fetch the first page at
`startIndex = 1`, `count = 1000`; read `totalResults` (default 0) and
`itemsPerPage` (default 1000) from it; start the loop at
`itemsPerPage + 1`; return the aggregate dictionary with `Resources` the
concatenation of all pages, `itemsPerPage` rewritten to its length and
`startIndex` fixed at 1. -/
def get_all_resources (bk : Int → Int → Option (Page α)) (fuel : Nat) :
    Outcome (AggPage α) :=
  match get_page bk 1 1000 with
  | none => Outcome.fatal
  | some first =>
    match pagerLoop bk (first.totalResults.getD 0) (first.itemsPerPage.getD 1000)
        fuel (first.itemsPerPage.getD 1000 + 1) (first.Resources.getD [])
        [(1, 1000)] with
    | Outcome.ok (allRes, reqs) =>
        Outcome.ok
          { schemas := first.schemas.getD []
            totalResults := first.totalResults.getD 0
            Resources := allRes
            itemsPerPage := (allRes.length : Int)
            startIndex := 1
            requests := reqs }
    | Outcome.fatal => Outcome.fatal
    | Outcome.outOfFuel => Outcome.outOfFuel

/-- A synthetic well-behaved backend: every fetch succeeds, every page
advertises `totalResults = r` and `itemsPerPage = p`, and the page at
`startIndex = s` carries the slice of `items` of length `p` beginning at
position `s - 1` ("returns `p` items per page until exhausted"). -/
def synthBackend (r p : Nat) (items : List α) : Int → Int → Option (Page α) :=
  fun s _ =>
    some { schemas := some []
           totalResults := some (r : Int)
           itemsPerPage := some (p : Int)
           startIndex := some s
           Resources := some ((items.drop (s - 1).toNat).take p) }

/-- A synthetic backend whose pages lack the `itemsPerPage` key entirely,
so `get_all_resources` falls back to the default stride 1000. -/
def synthBackendNoIpp (r : Nat) (items : List α) : Int → Int → Option (Page α) :=
  fun s _ =>
    some { schemas := some []
           totalResults := some (r : Int)
           itemsPerPage := none
           startIndex := some s
           Resources := some ((items.drop (s - 1).toNat).take 1000) }

/-- Number of fetches recorded in an `ok` aggregation (0 otherwise). -/
def fetchCount (o : Outcome (AggPage α)) : Nat :=
  match o with
  | Outcome.ok a => a.requests.length
  | _ => 0

/-- Ceiling division, the `ceil(R / P)` of the specification. -/
def ceilDiv (r p : Nat) : Nat := (r + p - 1) / p

/-- Resources obtained by replaying a list of recorded requests against the
backend, concatenated in order (an erroring or absent page contributes
nothing). -/
def fetchedResources (bk : Int → Int → Option (Page α))
    (rqs : List (Int × Int)) : List α :=
  rqs.flatMap (fun rq =>
    match bk rq.1 rq.2 with
    | some pg => pg.Resources.getD []
    | none => [])

/-- The pager terminates on a backend when some finite fuel suffices for
the run to end (normally or by process exit) rather than run out. -/
def pagerTerminates (bk : Int → Int → Option (Page α)) : Prop :=
  ∃ fuel, get_all_resources bk fuel ≠ Outcome.outOfFuel

/-- Observable events of a bulk-deletion run: one DELETE call per
identifier, and the `time.sleep(delay)` pauses between them. -/
inductive DelEvent where
  | del (rid : String)
  | sleep
deriving DecidableEq, Repr

/-- `delete_resource` (source lines 58–74): one DELETE call; a 2xx response
returns `True`, any `RequestException` is logged and swallowed, returning
`False`.  The call's result is supplied by `api`. -/
def delete_resource (api : String → Bool) (rid : String) : Bool :=
  api rid

/-- Python `dict` insertion `m[k] = v`: an existing key keeps its position
and gets the new value; a new key is appended. -/
def dictInsert (m : List (String × Bool)) (k : String) (v : Bool) :
    List (String × Bool) :=
  if (m.map Prod.fst).contains k then
    m.map (fun kv => if kv.1 = k then (k, v) else kv)
  else m ++ [(k, v)]

/-- The `for i, resource_id in enumerate(resource_ids, 1)` loop of
`delete_resources` (source lines 81–86): delete, record the outcome in the
dict, and `time.sleep(delay)` when `i < total`.  The trace records the
DELETE calls and sleeps in execution order. -/
def deleteLoop (api : String → Bool) (total : Nat) :
    List String → Nat → List (String × Bool) → List DelEvent →
    List (String × Bool) × List DelEvent
  | [], _, results, events => (results, events)
  | rid :: rest, i, results, events =>
    if i < total then
      deleteLoop api total rest (i + 1)
        (dictInsert results rid (delete_resource api rid))
        (events ++ [DelEvent.del rid, DelEvent.sleep])
    else
      deleteLoop api total rest (i + 1)
        (dictInsert results rid (delete_resource api rid))
        (events ++ [DelEvent.del rid])

/-- `delete_resources` (source lines 76–88): returns the outcome dict and
the event trace.  The configured delay `D` is the duration of each `sleep`
event; it does not influence control flow. -/
def delete_resources (api : String → Bool) (ids : List String) :
    List (String × Bool) × List DelEvent :=
  deleteLoop api ids.length ids 1 [] []

/-- The delete/sleep schedule the source actually produces: each deletion
is followed by a sleep except the last. -/
def expectedEvents : List String → List DelEvent
  | [] => []
  | [r] => [DelEvent.del r]
  | r :: s :: rest => DelEvent.del r :: DelEvent.sleep :: expectedEvents (s :: rest)

/-- Modelled from the spec: the schedule its words describe, a sleep
"before each deletion except the last". -/
def specDelaySchedule : List String → List DelEvent
  | [] => []
  | [r] => [DelEvent.del r]
  | r :: s :: rest => DelEvent.sleep :: DelEvent.del r :: specDelaySchedule (s :: rest)

/-- Recognizer for sleep events. -/
def isSleep : DelEvent → Bool
  | DelEvent.sleep => true
  | DelEvent.del _ => false

/-- Recognizer for DELETE-call events. -/
def isDel : DelEvent → Bool
  | DelEvent.del _ => true
  | DelEvent.sleep => false

/-- Number of sleeps (delay pauses) in a trace. -/
def sleepCount (tr : List DelEvent) : Nat := (tr.filter isSleep).length

/-- Number of DELETE network calls in a trace. -/
def delCount (tr : List DelEvent) : Nat := (tr.filter isDel).length

/-- Python truthiness of an `Optional[str]` argparse value: `None` and the
empty string are falsy. -/
def truthy : Option String → Bool
  | none => false
  | some s => s != ""

/-- Result of one of the single-shot mutation helpers: the decoded response
body, or `sys.exit(1)` after a `RequestException`. -/
inductive CallResult (α : Type) where
  | body (val : α)
  | exit1
deriving DecidableEq, Repr

/-- Termination state of a `main` path: the process exit code. -/
inductive ProcExit where
  | exited (code : Nat)
deriving DecidableEq, Repr

/-- `create_user` (source lines 90–135): one POST to `Users`; on success
return the decoded body, on any `RequestException` log and `sys.exit(1)`.
The pair's second component counts HTTP calls issued (always exactly 1). -/
def create_user (resp : Option String) : CallResult String × Nat :=
  match resp with
  | some b => (CallResult.body b, 1)
  | none => (CallResult.exit1, 1)

/-- `create_group` (source lines 137–172): one POST to `Groups`; same
success/failure behavior as `create_user`. -/
def create_group (resp : Option String) : CallResult String × Nat :=
  match resp with
  | some b => (CallResult.body b, 1)
  | none => (CallResult.exit1, 1)

/-- `add_user_to_group` (source lines 174–211): one PATCH to
`Groups/{group_id}`; returns `True` on 2xx and `False` (after logging) on
any `RequestException` — it never exits the process itself. -/
def add_user_to_group (resp : Option String) : Bool × Nat :=
  match resp with
  | some _ => (true, 1)
  | none => (false, 1)

/-- The `--add-to-group` path of `main` (source lines 266–276): missing or
empty `--user-id`/`--group-id` exits 1 with no network call; otherwise
`add_user_to_group` is called once and, success or failure, the path ends
in `sys.exit(0)`. -/
def main_add_to_group (userId groupId : Option String) (resp : Option String) :
    ProcExit × Nat :=
  if truthy userId && truthy groupId then
    (ProcExit.exited 0, (add_user_to_group resp).2)
  else
    (ProcExit.exited 1, 0)

/-- The `--action create` branch of `main` (source lines 279–323): with a
truthy `--username`, missing/empty email, first or last name exits 1 before
any request; otherwise `create_user` runs (one POST) and the process exits
0 on success.  Without a username, a truthy `--display-name` selects group
creation, and with neither the branch exits 1 with no request.  Payload
construction (lines 99–121, 146–158) only shapes the request body and is
not modelled; the second component counts HTTP calls issued. -/
def main_create (username email firstName lastName displayName : Option String)
    (userResp groupResp : Option String) : ProcExit × Nat :=
  if truthy username then
    if truthy email && truthy firstName && truthy lastName then
      match create_user userResp with
      | (CallResult.body _, n) => (ProcExit.exited 0, n)
      | (CallResult.exit1, n) => (ProcExit.exited 1, n)
    else (ProcExit.exited 1, 0)
  else if truthy displayName then
    match create_group groupResp with
    | (CallResult.body _, n) => (ProcExit.exited 0, n)
    | (CallResult.exit1, n) => (ProcExit.exited 1, n)
  else (ProcExit.exited 1, 0)

/-- A DELETE endpoint on which every call succeeds. -/
def alwaysOk : String → Bool := fun _ => true

/-- A DELETE endpoint on which exactly the identifier "2" fails. -/
def failsOn2 : String → Bool := fun r => r != "2"

/-- A backend whose first page reports `totalResults = 7` and
`itemsPerPage = 0`: the unguarded infinite-loop condition. -/
def zeroIppBackend : Int → Int → Option (Page Nat) :=
  fun s _ =>
    some { schemas := some []
           totalResults := some 7
           itemsPerPage := some 0
           startIndex := some s
           Resources := some [] }

/-- A backend whose first page reports `totalResults = 5` and a negative
`itemsPerPage`. -/
def negIppBackend : Int → Int → Option (Page Nat) :=
  fun s _ =>
    some { schemas := some []
           totalResults := some 5
           itemsPerPage := some (-2)
           startIndex := some s
           Resources := some [] }

/-- A backend on which every request fails at the transport level. -/
def downBackend : Int → Int → Option (Page Nat) :=
  fun _ _ => none

/-- A backend that serves page 1 (reporting `totalResults = 3`,
`itemsPerPage = 1`) and fails on every later page. -/
def failsAfterPage1 : Int → Int → Option (Page Nat) :=
  fun s _ =>
    if s = 1 then
      some { schemas := some []
             totalResults := some 3
             itemsPerPage := some 1
             startIndex := some s
             Resources := some [10] }
    else none

/-! ## Bulk-deleter lemmas -/

lemma dictInsert_of_not_mem (m : List (String × Bool)) (k : String) (v : Bool)
    (h : k ∉ m.map Prod.fst) : dictInsert m k v = m ++ [(k, v)] := by
  unfold dictInsert
  rw [if_neg (by simpa using h)]

lemma deleteLoop_events (api : String → Bool) (total : Nat) :
    ∀ (ids : List String) (i : Nat) (acc : List (String × Bool)) (ev : List DelEvent),
      i + ids.length = total + 1 →
      (deleteLoop api total ids i acc ev).2 = ev ++ expectedEvents ids := by
  intro ids
  induction ids with
  | nil =>
    intro i acc ev _
    simp [deleteLoop, expectedEvents]
  | cons r rest ih =>
    intro i acc ev h
    cases rest with
    | nil =>
      have hlt : ¬ i < total := by simp at h; omega
      simp [deleteLoop, hlt, expectedEvents]
    | cons x xs =>
      have hlt : i < total := by simp at h; omega
      have h2 : (i + 1) + (x :: xs).length = total + 1 := by simp at h ⊢; omega
      rw [show deleteLoop api total (r :: x :: xs) i acc ev =
            deleteLoop api total (x :: xs) (i + 1)
              (dictInsert acc r (delete_resource api r))
              (ev ++ [DelEvent.del r, DelEvent.sleep]) from by
          rw [deleteLoop, if_pos hlt]]
      rw [ih (i + 1) _ _ h2]
      simp [expectedEvents]

lemma deleteLoop_results (api : String → Bool) (total : Nat) :
    ∀ (ids : List String) (i : Nat) (acc : List (String × Bool)) (ev : List DelEvent),
      ids.Nodup → (∀ r ∈ ids, r ∉ acc.map Prod.fst) →
      (deleteLoop api total ids i acc ev).1 = acc ++ ids.map (fun r => (r, api r)) := by
  intro ids
  induction ids with
  | nil =>
    intro i acc ev _ _
    simp [deleteLoop]
  | cons r rest ih =>
    intro i acc ev hnd hkeys
    have hr : r ∉ acc.map Prod.fst := hkeys r (by simp)
    have hins : dictInsert acc r (delete_resource api r) = acc ++ [(r, api r)] :=
      dictInsert_of_not_mem _ _ _ hr
    have hnd2 : rest.Nodup := (List.nodup_cons.mp hnd).2
    have hne : r ∉ rest := (List.nodup_cons.mp hnd).1
    have hkeys2 : ∀ x ∈ rest, x ∉ (acc ++ [(r, api r)]).map Prod.fst := by
      intro x hx
      simp only [List.map_append, List.mem_append]
      push_neg
      refine ⟨hkeys x (by simp [hx]), ?_⟩
      simp only [List.map_cons, List.map_nil, List.mem_singleton]
      rintro rfl
      exact hne hx
    by_cases hlt : i < total
    · simp only [deleteLoop, if_pos hlt]
      rw [hins, ih (i + 1) _ _ hnd2 hkeys2]
      simp
    · simp only [deleteLoop, if_neg hlt]
      rw [hins, ih (i + 1) _ _ hnd2 hkeys2]
      simp

lemma expectedEvents_filter_del :
    ∀ ids : List String, (expectedEvents ids).filter isDel = ids.map DelEvent.del := by
  intro ids
  induction ids using expectedEvents.induct with
  | case1 => simp [expectedEvents]
  | case2 r => simp [expectedEvents, isDel, List.filter]
  | case3 r s rest ih => simp [expectedEvents, isDel, List.filter, ih]

lemma expectedEvents_sleepCount :
    ∀ ids : List String, sleepCount (expectedEvents ids) = ids.length - 1 := by
  intro ids
  induction ids using expectedEvents.induct with
  | case1 => simp [expectedEvents, sleepCount]
  | case2 r => simp [expectedEvents, sleepCount, isSleep, List.filter]
  | case3 r s rest ih =>
    have hstep : sleepCount (expectedEvents (r :: s :: rest)) =
        sleepCount (expectedEvents (s :: rest)) + 1 := by
      simp [expectedEvents, sleepCount, List.filter_cons, isSleep]
    rw [hstep, ih]
    simp only [List.length_cons]
    omega

lemma delete_resources_events (api : String → Bool) (ids : List String) :
    (delete_resources api ids).2 = expectedEvents ids := by
  unfold delete_resources
  rw [deleteLoop_events api ids.length ids 1 [] [] (by omega)]
  simp

lemma delete_resources_dict (api : String → Bool) (ids : List String) (h : ids.Nodup) :
    (delete_resources api ids).1 = ids.map (fun r => (r, api r)) := by
  unfold delete_resources
  rw [deleteLoop_results api ids.length ids 1 [] [] h (by simp)]
  simp

/-! ## Claims C4, C5, C6 -/

/-- C4 (amended): for a duplicate-free list of N identifiers the outcome
mapping of `delete_resources` has exactly N entries, one per identifier,
in processing order; a zero-identifier input yields the empty mapping with
an empty event trace (zero network calls, zero delays).  Duplicate
identifiers collapse into one dictionary entry, so the entry count there
is the number of distinct identifiers, not N. -/
theorem claim_C4_outcome_entries :
    (∀ (api : String → Bool) (ids : List String), ids.Nodup →
        (delete_resources api ids).1 = ids.map (fun r => (r, api r)) ∧
        ((delete_resources api ids).1).length = ids.length ∧
        ((delete_resources api ids).1).map Prod.fst = ids) ∧
    (∀ api : String → Bool, delete_resources api [] = ([], [])) := by
  constructor
  · intro api ids h
    have hd := delete_resources_dict api ids h
    have hfst : (Prod.fst ∘ fun r : String => (r, api r)) = fun r => r :=
      funext fun r => rfl
    refine ⟨hd, by rw [hd]; simp, by rw [hd]; simp only [List.map_map, hfst]; simp⟩
  · intro api
    rfl

/-- Witness for C4 at a concrete two-identifier input. -/
theorem claim_C4_outcome_entries_witness :
    (["a", "b"] : List String).Nodup ∧
    (delete_resources alwaysOk ["a", "b"]).1 = [("a", true), ("b", true)] := by
  refine ⟨by decide, ?_⟩
  have h := (claim_C4_outcome_entries.1 alwaysOk ["a", "b"] (by decide)).1
  simpa [alwaysOk] using h

/-- C4 counterexample: the 2-element input `["a", "a"]` produces a mapping
with 1 entry, not 2 — a Python dict keys outcomes by identifier. -/
theorem claim_C4_counterexample :
    ((delete_resources alwaysOk ["a", "a"]).1).length = 1 ∧
    (["a", "a"] : List String).length = 2 := by
  exact ⟨by decide, by decide⟩

/-- C5: a delete failure on one identifier does not stop the rest —
`delete_resource` returns the per-identifier flag without raising, every
identifier in the input is attempted (one DELETE event each, in input
order), and with identifier 2 of 3 failing the outcome maps 1 ↦ true,
2 ↦ false, 3 ↦ true. -/
theorem claim_C5_failure_isolation :
    (∀ (api : String → Bool) (ids : List String),
        ((delete_resources api ids).2).filter isDel = ids.map DelEvent.del) ∧
    (∀ (api : String → Bool) (rid : String), delete_resource api rid = api rid) ∧
    (delete_resources failsOn2 ["1", "2", "3"]).1 =
      [("1", true), ("2", false), ("3", true)] := by
  refine ⟨?_, fun _ _ => rfl, by decide⟩
  intro api ids
  rw [delete_resources_events, expectedEvents_filter_del]

/-- C6 (amended): `delete_resources` suspends execution for the configured
delay after each deletion except the last (equivalently, between
consecutive deletions), performing exactly N − 1 delay pauses for a
non-empty list of N identifiers. -/
theorem claim_C6_delay_schedule :
    (∀ (api : String → Bool) (ids : List String),
        (delete_resources api ids).2 = expectedEvents ids) ∧
    (∀ (api : String → Bool) (ids : List String), ids ≠ [] →
        sleepCount (delete_resources api ids).2 = ids.length - 1) := by
  refine ⟨delete_resources_events, ?_⟩
  intro api ids _
  rw [delete_resources_events, expectedEvents_sleepCount]

/-- Witness for C6 at a concrete three-identifier input. -/
theorem claim_C6_delay_schedule_witness :
    (["a", "b", "c"] : List String) ≠ [] ∧
    sleepCount (delete_resources alwaysOk ["a", "b", "c"]).2 = 2 := by
  refine ⟨by decide, ?_⟩
  have h := claim_C6_delay_schedule.2 alwaysOk ["a", "b", "c"] (by decide)
  simpa using h

/-- C6 counterexample: on `["a", "b"]` the source's trace is
delete–sleep–delete, while a sleep before each deletion except the last
would give sleep–delete–delete; the two schedules differ. -/
theorem claim_C6_counterexample :
    (delete_resources alwaysOk ["a", "b"]).2 =
        [DelEvent.del "a", DelEvent.sleep, DelEvent.del "b"] ∧
    specDelaySchedule ["a", "b"] =
        [DelEvent.sleep, DelEvent.del "a", DelEvent.del "b"] ∧
    (delete_resources alwaysOk ["a", "b"]).2 ≠ specDelaySchedule ["a", "b"] := by
  exact ⟨by decide, by decide, by decide⟩

/-! ## Claims C7, C8: single-shot mutation operations and CLI validation -/

/-- C7 (amended): `create_user` and `create_group` each issue exactly one
HTTP call and either return the decoded response body or terminate the
process with exit code 1 on a transport/HTTP error; `add_user_to_group`
also issues exactly one call but returns `false` on error instead of
exiting, and the add-to-group CLI path then reports the failure yet ends
in `sys.exit(0)`. -/
theorem claim_C7_mutation_error_handling :
    (∀ resp : Option String, (create_user resp).2 = 1) ∧
    create_user none = (CallResult.exit1, 1) ∧
    (∀ b : String, create_user (some b) = (CallResult.body b, 1)) ∧
    (∀ resp : Option String, (create_group resp).2 = 1) ∧
    create_group none = (CallResult.exit1, 1) ∧
    (∀ b : String, create_group (some b) = (CallResult.body b, 1)) ∧
    (∀ resp : Option String, (add_user_to_group resp).2 = 1) ∧
    add_user_to_group none = (false, 1) ∧
    (∀ userId groupId resp : Option String,
        truthy userId = true → truthy groupId = true →
        main_add_to_group userId groupId resp = (ProcExit.exited 0, 1)) := by
  refine ⟨fun r => by cases r <;> rfl, rfl, fun b => rfl,
          fun r => by cases r <;> rfl, rfl, fun b => rfl,
          fun r => by cases r <;> rfl, rfl, ?_⟩
  intro u g resp hu hg
  simp only [main_add_to_group, hu, hg, Bool.and_self, if_pos]
  cases resp <;> rfl

/-- Witness for C7 at concrete truthy identifiers. -/
theorem claim_C7_mutation_error_handling_witness :
    truthy (some "u") = true ∧ truthy (some "g") = true ∧
    main_add_to_group (some "u") (some "g") (some "ok") = (ProcExit.exited 0, 1) := by
  exact ⟨by decide, by decide,
    claim_C7_mutation_error_handling.2.2.2.2.2.2.2.2 (some "u") (some "g") (some "ok")
      (by decide) (by decide)⟩

/-- C7 counterexample: a transport error during add-to-group makes
`add_user_to_group` return false, and the CLI path still terminates with
exit code 0, not a non-zero code. -/
theorem claim_C7_counterexample :
    add_user_to_group none = (false, 1) ∧
    main_add_to_group (some "u") (some "g") none = (ProcExit.exited 0, 1) := by
  exact ⟨rfl, by decide⟩

/-- C8: with the create action, a (truthy) username and any of email,
first name or last name absent, the process exits with code 1 and issues
no network call. -/
theorem claim_C8_create_user_validation
    (username email firstName lastName displayName userResp groupResp : Option String)
    (hu : truthy username = true)
    (hmiss : email = none ∨ firstName = none ∨ lastName = none) :
    main_create username email firstName lastName displayName userResp groupResp =
      (ProcExit.exited 1, 0) := by
  have he : (truthy email && truthy firstName && truthy lastName) = false := by
    rcases hmiss with h | h | h <;> subst h <;> simp [truthy]
  simp [main_create, hu, he]

/-- Witness for C8: username given, email missing. -/
theorem claim_C8_create_user_validation_witness :
    truthy (some "alice") = true ∧
    main_create (some "alice") none (some "Ada") (some "L") none (some "r1") (some "r2") =
      (ProcExit.exited 1, 0) := by
  exact ⟨by decide,
    claim_C8_create_user_validation (some "alice") none (some "Ada") (some "L") none
      (some "r1") (some "r2") (by decide) (Or.inl rfl)⟩

/-! ## Pager lemmas -/

lemma range_succ_flatMap {β : Type} (n : Nat) (f : Nat → List β) :
    (List.range (n + 1)).flatMap f = f 0 ++ (List.range n).flatMap (fun k => f (k + 1)) := by
  rw [List.range_succ_eq_map, List.flatMap_cons, List.flatMap_map]

lemma range_succ_map {β : Type} (n : Nat) (f : Nat → β) :
    (List.range (n + 1)).map f = f 0 :: (List.range n).map (fun k => f (k + 1)) := by
  rw [List.range_succ_eq_map, List.map_cons, List.map_map]
  rfl

lemma pagerLoop_stuck {α : Type} (bk : Int → Int → Option (Page α)) (pgs : Int → Page α)
    (hbk : ∀ s c, bk s c = some (pgs s)) (total stride : Int) (hs : stride ≤ 0) :
    ∀ (fuel : Nat) (idx : Int) (acc : List α) (reqs : List (Int × Int)),
      idx ≤ total →
      pagerLoop bk total stride fuel idx acc reqs = Outcome.outOfFuel := by
  intro fuel
  induction fuel with
  | zero => intro idx acc reqs _; rfl
  | succ m ih =>
    intro idx acc reqs h
    simp only [pagerLoop, get_page, if_pos h, hbk]
    exact ih _ _ _ (by omega)

lemma getAll_stuck {α : Type} (bk : Int → Int → Option (Page α)) (pgs : Int → Page α)
    (hbk : ∀ s c, bk s c = some (pgs s))
    (hR : 1 ≤ ((pgs 1).totalResults).getD 0)
    (hP : ((pgs 1).itemsPerPage).getD 1000 ≤ 0) :
    ∀ fuel, get_all_resources bk fuel = Outcome.outOfFuel := by
  intro fuel
  simp only [get_all_resources, get_page, hbk]
  rw [pagerLoop_stuck bk pgs hbk _ _ hP fuel _ _ _ (by omega)]

lemma pagerLoop_run {α : Type} (bk : Int → Int → Option (Page α)) (pgs : Int → Page α)
    (hbk : ∀ s c, bk s c = some (pgs s)) (total stride : Int) :
    ∀ (n : Nat) (idx : Int),
      total < idx + n * stride →
      (∀ k : Nat, k < n → idx + k * stride ≤ total) →
      ∀ (fuel : Nat), n < fuel →
      ∀ (acc : List α) (reqs : List (Int × Int)),
      pagerLoop bk total stride fuel idx acc reqs =
        Outcome.ok
          (acc ++ (List.range n).flatMap
              (fun k : Nat => ((pgs (idx + (k : Int) * stride)).Resources).getD []),
           reqs ++ (List.range n).map
              (fun k : Nat => (idx + (k : Int) * stride, (1000 : Int)))) := by
  intro n
  induction n with
  | zero =>
    intro idx hgt _ fuel hf acc reqs
    obtain ⟨m, rfl⟩ : ∃ m, fuel = m + 1 := ⟨fuel - 1, by omega⟩
    have hnle : ¬ idx ≤ total := by
      simp only [Nat.cast_zero, zero_mul, add_zero] at hgt
      omega
    simp [pagerLoop, hnle]
  | succ n ih =>
    intro idx hgt hle fuel hf acc reqs
    obtain ⟨m, rfl⟩ : ∃ m, fuel = m + 1 := ⟨fuel - 1, by omega⟩
    have h0 : idx ≤ total := by
      have h := hle 0 (by omega)
      simpa using h
    have hshift : idx + ((n + 1 : Nat) : Int) * stride =
        (idx + stride) + (n : Int) * stride := by push_cast; ring
    rw [hshift] at hgt
    have hle2 : ∀ k : Nat, k < n → (idx + stride) + (k : Int) * stride ≤ total := by
      intro k hk
      have h := hle (k + 1) (by omega)
      rw [show idx + ((k + 1 : Nat) : Int) * stride =
          (idx + stride) + (k : Int) * stride from by push_cast; ring] at h
      exact h
    simp only [pagerLoop, get_page, if_pos h0, hbk]
    rw [ih (idx + stride) hgt hle2 m (by omega)]
    rw [range_succ_flatMap, range_succ_map]
    have hfun1 : (fun k : Nat => ((pgs (idx + ((k + 1 : Nat) : Int) * stride)).Resources).getD []) =
        (fun k : Nat => ((pgs ((idx + stride) + (k : Int) * stride)).Resources).getD []) := by
      funext k
      rw [show idx + ((k + 1 : Nat) : Int) * stride =
          (idx + stride) + (k : Int) * stride from by push_cast; ring]
    have hfun2 : (fun k : Nat => (idx + ((k + 1 : Nat) : Int) * stride, (1000 : Int))) =
        (fun k : Nat => ((idx + stride) + (k : Int) * stride, (1000 : Int))) := by
      funext k
      rw [show idx + ((k + 1 : Nat) : Int) * stride =
          (idx + stride) + (k : Int) * stride from by push_cast; ring]
    rw [hfun1, hfun2]
    simp [List.append_assoc]

lemma chunks_cover {α : Type} (p : Nat) :
    ∀ (n o : Nat) (items : List α), items.length ≤ o + n * p →
      (List.range n).flatMap (fun k => (items.drop (o + k * p)).take p) = items.drop o := by
  intro n
  induction n with
  | zero =>
    intro o items h
    rw [List.range_zero, List.flatMap_nil]
    exact ((List.drop_eq_nil_of_le (by simpa using h))).symm
  | succ n ih =>
    intro o items h
    rw [range_succ_flatMap]
    have hfun : (fun k : Nat => (items.drop (o + (k + 1) * p)).take p) =
        (fun k : Nat => (items.drop ((o + p) + k * p)).take p) := by
      funext k
      rw [show o + (k + 1) * p = (o + p) + k * p from by ring]
    rw [hfun, ih (o + p) items (by
      have hr : o + (n + 1) * p = (o + p) + n * p := by ring
      omega)]
    simp only [Nat.zero_mul, Nat.add_zero]
    rw [← List.drop_drop, List.take_append_drop]

lemma pager_bound_upper_nat (r p : Nat) (hp : 1 ≤ p) :
    r < p + 1 + ((r - 1) / p) * p := by
  have hd : p * ((r - 1) / p) + (r - 1) % p = r - 1 := Nat.div_add_mod (r - 1) p
  have hm : (r - 1) % p < p := Nat.mod_lt _ (by omega)
  rw [Nat.mul_comm] at hd
  generalize hA : ((r - 1) / p) * p = A at hd ⊢
  generalize hB : (r - 1) % p = B at hd hm
  omega

lemma pager_bound_upper (r p : Nat) (hp : 1 ≤ p) :
    (r : Int) < ((p : Int) + 1) + (((r - 1) / p : Nat) : Int) * (p : Int) := by
  exact_mod_cast pager_bound_upper_nat r p hp

lemma pager_bound_lower (r p : Nat) (hp : 1 ≤ p) :
    ∀ k : Nat, k < (r - 1) / p → ((p : Int) + 1) + (k : Int) * (p : Int) ≤ (r : Int) := by
  intro k hk
  have h1 : (k + 1) * p ≤ ((r - 1) / p) * p := Nat.mul_le_mul_right p (by omega)
  have h2 : ((r - 1) / p) * p ≤ r - 1 := Nat.div_mul_le_self _ _
  have h3 : 1 ≤ (r - 1) / p := by omega
  have h4 : p ≤ r - 1 := (Nat.one_le_div_iff (by omega)).mp h3
  have h5 : (k + 1) * p = k * p + p := Nat.succ_mul k p
  have hnat : p + 1 + k * p ≤ r := by
    generalize hA : k * p = A at h1 h5 ⊢
    generalize hB : ((r - 1) / p) * p = B at h1 h2
    omega
  exact_mod_cast hnat

/-- ``(1, 1000)`` followed by the loop's request list is the uniform
schedule ``1 + k·p`` over ``n + 1`` fetches. -/
lemma requests_norm (p n : Nat) :
    ((1 : Int), (1000 : Int)) :: (List.range n).map
        (fun k : Nat => (((p : Int) + 1) + (k : Int) * (p : Int), (1000 : Int))) =
      (List.range (n + 1)).map
        (fun k : Nat => ((1 : Int) + (k : Int) * (p : Int), (1000 : Int))) := by
  rw [range_succ_map]
  have hfun : (fun k : Nat => ((1 : Int) + ((k + 1 : Nat) : Int) * (p : Int), (1000 : Int))) =
      (fun k : Nat => (((p : Int) + 1) + (k : Int) * (p : Int), (1000 : Int))) := by
    funext k
    rw [show (1 : Int) + ((k + 1 : Nat) : Int) * (p : Int) =
        ((p : Int) + 1) + (k : Int) * (p : Int) from by push_cast; ring]
  rw [hfun]
  simp

/-- Master run lemma: on a backend whose every fetch returns a page
(`pgs s` at `startIndex = s`), with first-page `totalResults` reading `r`
and `itemsPerPage` reading `p ≥ 1`, and enough fuel, `get_all_resources`
succeeds and its aggregate is given explicitly: `(r - 1) / p` loop fetches
after the initial one, at `startIndex = p + 1, 2p + 1, …`. -/
lemma getAll_run {α : Type} (bk : Int → Int → Option (Page α)) (pgs : Int → Page α)
    (hbk : ∀ s c, bk s c = some (pgs s)) (r p : Nat) (hp : 1 ≤ p)
    (htr : ((pgs 1).totalResults).getD 0 = (r : Int))
    (hipp : ((pgs 1).itemsPerPage).getD 1000 = (p : Int))
    (fuel : Nat) (hf : (r - 1) / p < fuel) :
    get_all_resources bk fuel = Outcome.ok
      { schemas := ((pgs 1).schemas).getD []
        totalResults := (r : Int)
        Resources := ((pgs 1).Resources).getD [] ++
          (List.range ((r - 1) / p)).flatMap
            (fun k : Nat =>
              ((pgs (((p : Int) + 1) + (k : Int) * (p : Int))).Resources).getD [])
        itemsPerPage := ((((pgs 1).Resources).getD [] ++
          (List.range ((r - 1) / p)).flatMap
            (fun k : Nat =>
              ((pgs (((p : Int) + 1) + (k : Int) * (p : Int))).Resources).getD [])).length : Int)
        startIndex := 1
        requests := (List.range ((r - 1) / p + 1)).map
          (fun k : Nat => ((1 : Int) + (k : Int) * (p : Int), (1000 : Int))) } := by
  simp only [get_all_resources, get_page, hbk, htr, hipp]
  rw [pagerLoop_run bk pgs hbk (r : Int) (p : Int) ((r - 1) / p) ((p : Int) + 1)
      (pager_bound_upper r p hp) (pager_bound_lower r p hp) fuel hf
      (((pgs 1).Resources).getD []) [(1, 1000)]]
  rw [show ([((1 : Int), (1000 : Int))] ++ (List.range ((r - 1) / p)).map
        (fun k : Nat => (((p : Int) + 1) + (k : Int) * (p : Int), (1000 : Int)))) =
      (((1 : Int), (1000 : Int)) :: (List.range ((r - 1) / p)).map
        (fun k : Nat => (((p : Int) + 1) + (k : Int) * (p : Int), (1000 : Int)))) from
    List.singleton_append]
  rw [requests_norm]

lemma synth_first_chunk {α : Type} (p : Nat) (items : List α) :
    (items.drop ((1 : Int) - 1).toNat).take p = items.take p := by
  rw [show ((1 : Int) - 1).toNat = 0 from by decide, List.drop_zero]

lemma synth_later_chunk {α : Type} (p k : Nat) (items : List α) :
    (items.drop ((((p : Int) + 1) + (k : Int) * (p : Int)) - 1).toNat).take p =
      (items.drop (p + k * p)).take p := by
  rw [show (((p : Int) + 1) + (k : Int) * (p : Int)) - 1 = ((p + k * p : Nat) : Int) from by
        push_cast; ring,
      Int.toNat_natCast]

/-- `get_all_resources` on a synthetic well-behaved backend, with the page
slices spelled out as `take`/`drop` windows of the item list. -/
lemma getAll_synth {α : Type} (r p : Nat) (hp : 1 ≤ p) (items : List α) (fuel : Nat)
    (hf : (r - 1) / p < fuel) :
    get_all_resources (synthBackend r p items) fuel = Outcome.ok
      { schemas := []
        totalResults := (r : Int)
        Resources := items.take p ++ (List.range ((r - 1) / p)).flatMap
            (fun k : Nat => (items.drop (p + k * p)).take p)
        itemsPerPage := ((items.take p ++ (List.range ((r - 1) / p)).flatMap
            (fun k : Nat => (items.drop (p + k * p)).take p)).length : Int)
        startIndex := 1
        requests := (List.range ((r - 1) / p + 1)).map
          (fun k : Nat => ((1 : Int) + (k : Int) * (p : Int), (1000 : Int))) } := by
  rw [getAll_run (synthBackend r p items)
      (fun s => { schemas := some []
                  totalResults := some (r : Int)
                  itemsPerPage := some (p : Int)
                  startIndex := some s
                  Resources := some ((items.drop (s - 1).toNat).take p) })
      (fun s c => rfl) r p hp rfl rfl fuel hf]
  simp only [Option.getD_some, synth_first_chunk, synth_later_chunk]

/-- Concatenating the first page's window with the loop pages' windows
recovers the full item list when the list has exactly `r` elements. -/
lemma synth_resources_cover {α : Type} (r p : Nat) (hp : 1 ≤ p) (items : List α)
    (hl : items.length = r) :
    items.take p ++ (List.range ((r - 1) / p)).flatMap
        (fun k : Nat => (items.drop (p + k * p)).take p) = items := by
  have hlen : items.length ≤ 0 + ((r - 1) / p + 1) * p := by
    have hub := pager_bound_upper_nat r p hp
    have hmul : ((r - 1) / p + 1) * p = ((r - 1) / p) * p + p := Nat.succ_mul _ _
    generalize hA : ((r - 1) / p) * p = A at hub hmul
    omega
  have hcover := chunks_cover p ((r - 1) / p + 1) 0 items hlen
  rw [range_succ_flatMap] at hcover
  simp only [Nat.zero_mul, Nat.add_zero, Nat.zero_add, List.drop_zero] at hcover
  rw [show (fun k : Nat => (items.drop ((k + 1) * p)).take p) =
      (fun k : Nat => (items.drop (p + k * p)).take p) from by
    funext k
    rw [show (k + 1) * p = p + k * p from by ring]] at hcover
  exact hcover

lemma div_succ_eq_max (r p : Nat) (hp : 1 ≤ p) :
    (r - 1) / p + 1 = max 1 (ceilDiv r p) := by
  cases r with
  | zero =>
    have h0 : ceilDiv 0 p = 0 := by
      unfold ceilDiv
      rw [Nat.zero_add]
      exact Nat.div_eq_of_lt (by omega)
    rw [h0]
    simp
  | succ s =>
    have h2 : (s + p) / p = s / p + 1 := Nat.add_div_right s (by omega)
    have hceil : ceilDiv (s + 1) p = s / p + 1 := by
      unfold ceilDiv
      rw [show s + 1 + p - 1 = s + p from by omega, h2]
    have hl : s + 1 - 1 = s := by omega
    rw [hl, hceil]
    generalize s / p = q
    omega

lemma div_succ_eq_ceil (r p : Nat) (hp : 1 ≤ p) (hr : 1 ≤ r) :
    (r - 1) / p + 1 = ceilDiv r p := by
  have h := div_succ_eq_max r p hp
  have hge : 1 ≤ ceilDiv r p := by
    unfold ceilDiv
    rw [Nat.one_le_div_iff (by omega)]
    omega
  generalize hA : (r - 1) / p = A at h ⊢
  generalize hB : ceilDiv r p = B at h hge ⊢
  omega

/-! ## Claims C1, C2, C3 -/

/-- C1 (amended): against a backend reporting `totalResults = r` and
`itemsPerPage = p ≥ 1` and returning `p` items per page until exhausted,
`get_all_resources` performs exactly `max 1 (ceil(r / p))` fetches —
`ceil(r / p)` whenever `r ≥ 1`, and the single mandatory first fetch when
`r = 0` — the first at `startIndex = 1`, each subsequent fetch advancing
`startIndex` by `p`, stopping once `startIndex` exceeds `r`. -/
theorem claim_C1_fetch_schedule {α : Type} (r p : Nat) (items : List α) (fuel : Nat)
    (hp : 1 ≤ p) (hf : (r - 1) / p < fuel) :
    ∃ agg : AggPage α,
      get_all_resources (synthBackend r p items) fuel = Outcome.ok agg ∧
      agg.requests = (List.range (max 1 (ceilDiv r p))).map
        (fun k : Nat => ((1 : Int) + (k : Int) * (p : Int), (1000 : Int))) ∧
      agg.requests.length = max 1 (ceilDiv r p) ∧
      (1 ≤ r → agg.requests.length = ceilDiv r p) := by
  refine ⟨_, getAll_synth r p hp items fuel hf, ?_, ?_, ?_⟩
  · rw [div_succ_eq_max r p hp]
  · simp only [List.length_map, List.length_range]
    exact div_succ_eq_max r p hp
  · intro hr
    simp only [List.length_map, List.length_range]
    exact div_succ_eq_ceil r p hp hr

/-- Witness for C1 at the spec's example: totalResults 2500,
itemsPerPage 1000 give 3 fetches at startIndex 1, 1001, 2001. -/
theorem claim_C1_fetch_schedule_witness :
    (1 : Nat) ≤ 1000 ∧ (2500 - 1) / 1000 < 3 ∧
    ∃ agg : AggPage Nat,
      get_all_resources (synthBackend 2500 1000 (List.range 2500)) 3 = Outcome.ok agg ∧
      agg.requests = [((1 : Int), (1000 : Int)), (1001, 1000), (2001, 1000)] := by
  refine ⟨by omega, by omega, ?_⟩
  obtain ⟨agg, h1, h2, h3, h4⟩ :=
    claim_C1_fetch_schedule 2500 1000 (List.range 2500) 3 (by omega) (by omega)
  refine ⟨agg, h1, ?_⟩
  rw [h2]
  decide

/-- C1 counterexample: a backend reporting `totalResults = 0` still gets
one fetch (the mandatory first page), while `ceil(0 / 1000) = 0`. -/
theorem claim_C1_counterexample :
    fetchCount (get_all_resources (synthBackend 0 1000 ([] : List Nat)) 3) = 1 ∧
    ceilDiv 0 1000 = 0 := by
  exact ⟨by decide, by decide⟩

/-- C2 (amended): on a backend whose fetches all succeed and whose first
page reports `totalResults ≥ 1` and `itemsPerPage ≤ 0`, `get_all_resources`
does not terminate: the cursor never advances past `totalResults` and the
loop fetches pages without bound — the condition is not guarded. -/
theorem claim_C2_unbounded_loop {α : Type} (bk : Int → Int → Option (Page α))
    (pgs : Int → Page α) (hbk : ∀ s c, bk s c = some (pgs s))
    (hR : 1 ≤ ((pgs 1).totalResults).getD 0)
    (hP : ((pgs 1).itemsPerPage).getD 1000 ≤ 0) :
    ¬ pagerTerminates bk := by
  rintro ⟨fuel, hne⟩
  exact hne (getAll_stuck bk pgs hbk hR hP fuel)

/-- Witness for C2 on the backend reporting totalResults 5 and
itemsPerPage −2. -/
theorem claim_C2_unbounded_loop_witness : ¬ pagerTerminates negIppBackend := by
  exact claim_C2_unbounded_loop negIppBackend
    (fun s => { schemas := some []
                totalResults := some 5
                itemsPerPage := some (-2)
                startIndex := some s
                Resources := some [] })
    (fun s c => rfl) (by decide) (by decide)

/-- C2 counterexample: on the backend reporting totalResults 7 and
itemsPerPage 0, `get_all_resources` exhausts every amount of fuel — it
neither returns nor turns the condition into a fatal error, contradicting
the claimed termination. -/
theorem claim_C2_counterexample : ¬ pagerTerminates zeroIppBackend := by
  rintro ⟨fuel, hne⟩
  exact hne (getAll_stuck zeroIppBackend
    (fun s => { schemas := some []
                totalResults := some 7
                itemsPerPage := some 0
                startIndex := some s
                Resources := some [] })
    (fun s c => rfl) (by decide) (by decide) fuel)

lemma pagerLoop_fetched {α : Type} (bk : Int → Int → Option (Page α)) (total stride : Int) :
    ∀ (fuel : Nat) (idx : Int) (acc : List α) (reqs : List (Int × Int))
      (allRes : List α) (rqs : List (Int × Int)),
      pagerLoop bk total stride fuel idx acc reqs = Outcome.ok (allRes, rqs) →
      acc = fetchedResources bk reqs →
      allRes = fetchedResources bk rqs := by
  intro fuel
  induction fuel with
  | zero =>
    intro idx acc reqs allRes rqs h _
    exact absurd h (by simp [pagerLoop])
  | succ m ih =>
    intro idx acc reqs allRes rqs h hacc
    by_cases hc : idx ≤ total
    · cases hbk : bk idx 1000 with
      | none =>
        simp only [pagerLoop, get_page, if_pos hc, hbk] at h
        exact Outcome.noConfusion h
      | some pg =>
        simp only [pagerLoop, get_page, if_pos hc, hbk] at h
        refine ih _ _ _ _ _ h ?_
        rw [hacc]
        simp [fetchedResources, List.flatMap_append, hbk]
    · simp only [pagerLoop, if_neg hc, Outcome.ok.injEq, Prod.mk.injEq] at h
      obtain ⟨h1, h2⟩ := h
      rw [← h1, ← h2, hacc]

/-- C3: every successful aggregation has `startIndex = 1`, `itemsPerPage`
rewritten to the length of `Resources`, and `Resources` equal to the
concatenation of all fetched pages' `Resources` in fetch order; and on a
well-behaved backend delivering its advertised `p ≥ 1` items per page
until `totalResults = r` items are exhausted, the aggregate holds exactly
the `r` items (its length equals the first page's `totalResults`). -/
theorem claim_C3_aggregate_shape :
    (∀ (α : Type) (bk : Int → Int → Option (Page α)) (fuel : Nat) (agg : AggPage α),
        get_all_resources bk fuel = Outcome.ok agg →
        agg.startIndex = 1 ∧ agg.itemsPerPage = (agg.Resources.length : Int) ∧
        agg.Resources = fetchedResources bk agg.requests) ∧
    (∀ (α : Type) (r p : Nat) (items : List α) (fuel : Nat),
        1 ≤ p → items.length = r → (r - 1) / p < fuel →
        ∃ agg : AggPage α,
          get_all_resources (synthBackend r p items) fuel = Outcome.ok agg ∧
          agg.Resources = items ∧ agg.totalResults = (r : Int) ∧
          (agg.Resources.length : Int) = agg.totalResults) := by
  constructor
  · intro α bk fuel agg h
    rcases hbk1 : bk 1 1000 with _ | first
    · simp only [get_all_resources, get_page, hbk1] at h
      exact Outcome.noConfusion h
    · simp only [get_all_resources, get_page, hbk1] at h
      rcases hloop : pagerLoop bk (first.totalResults.getD 0) (first.itemsPerPage.getD 1000)
          fuel (first.itemsPerPage.getD 1000 + 1) (first.Resources.getD []) [(1, 1000)] with
          ⟨allRes, rqs⟩ | _ | _
      · rw [hloop] at h
        simp only [Outcome.ok.injEq] at h
        subst h
        refine ⟨rfl, rfl, ?_⟩
        refine pagerLoop_fetched bk _ _ fuel _ _ _ _ _ hloop ?_
        simp [fetchedResources, hbk1]
      · rw [hloop] at h
        exact Outcome.noConfusion h
      · rw [hloop] at h
        exact Outcome.noConfusion h
  · intro α r p items fuel hp hl hf
    refine ⟨_, getAll_synth r p hp items fuel hf, ?_, rfl, ?_⟩
    · exact synth_resources_cover r p hp items hl
    · rw [show ({ schemas := []
                  totalResults := (r : Int)
                  Resources := items.take p ++ (List.range ((r - 1) / p)).flatMap
                      (fun k : Nat => (items.drop (p + k * p)).take p)
                  itemsPerPage := ((items.take p ++ (List.range ((r - 1) / p)).flatMap
                      (fun k : Nat => (items.drop (p + k * p)).take p)).length : Int)
                  startIndex := 1
                  requests := (List.range ((r - 1) / p + 1)).map
                    (fun k : Nat => ((1 : Int) + (k : Int) * (p : Int), (1000 : Int))) } :
            AggPage α).Resources = items from synth_resources_cover r p hp items hl, hl]

/-- Witness for C3 at r = 4, p = 2. -/
theorem claim_C3_aggregate_shape_witness :
    (1 : Nat) ≤ 2 ∧ ([10, 20, 30, 40] : List Nat).length = 4 ∧
    ∃ agg : AggPage Nat,
      get_all_resources (synthBackend 4 2 [10, 20, 30, 40]) 5 = Outcome.ok agg ∧
      agg.Resources = [10, 20, 30, 40] ∧ agg.totalResults = 4 := by
  refine ⟨by omega, by decide, ?_⟩
  obtain ⟨agg, h1, h2, h3, h4⟩ :=
    claim_C3_aggregate_shape.2 Nat 4 2 [10, 20, 30, 40] 5 (by omega) (by decide) (by omega)
  exact ⟨agg, h1, h2, h3⟩

lemma pagerLoop_ok_requests {α : Type} (bk : Int → Int → Option (Page α)) (total stride : Int) :
    ∀ (fuel : Nat) (idx : Int) (acc : List α) (reqs : List (Int × Int))
      (allRes : List α) (rqs : List (Int × Int)),
      pagerLoop bk total stride fuel idx acc reqs = Outcome.ok (allRes, rqs) →
      ∀ rq ∈ rqs, rq ∈ reqs ∨ (rq.2 = 1000 ∧ bk rq.1 1000 ≠ none) := by
  intro fuel
  induction fuel with
  | zero =>
    intro idx acc reqs allRes rqs h
    exact absurd h (by simp [pagerLoop])
  | succ m ih =>
    intro idx acc reqs allRes rqs h rq hrq
    by_cases hc : idx ≤ total
    · cases hbk : bk idx 1000 with
      | none =>
        simp only [pagerLoop, get_page, if_pos hc, hbk] at h
        exact Outcome.noConfusion h
      | some pg =>
        simp only [pagerLoop, get_page, if_pos hc, hbk] at h
        rcases ih _ _ _ _ _ h rq hrq with hmem | hgood
        · rcases List.mem_append.mp hmem with hmem2 | hmem2
          · exact Or.inl hmem2
          · right
            have : rq = (idx, 1000) := by simpa using hmem2
            subst this
            exact ⟨rfl, by rw [hbk]; exact fun hx => Option.noConfusion hx⟩
        · exact Or.inr hgood
    · simp only [pagerLoop, if_neg hc, Outcome.ok.injEq, Prod.mk.injEq] at h
      obtain ⟨_, h2⟩ := h
      rw [← h2] at hrq
      exact Or.inl hrq

lemma pagerLoop_congr {α : Type} (b1 b2 : Int → Int → Option (Page α)) (total stride : Int)
    (h : ∀ s c, Option.map Page.Resources (b1 s c) = Option.map Page.Resources (b2 s c)) :
    ∀ (fuel : Nat) (idx : Int) (acc : List α) (reqs : List (Int × Int)),
      pagerLoop b1 total stride fuel idx acc reqs =
        pagerLoop b2 total stride fuel idx acc reqs := by
  intro fuel
  induction fuel with
  | zero => intro idx acc reqs; rfl
  | succ m ih =>
    intro idx acc reqs
    by_cases hc : idx ≤ total
    · have hr := h idx 1000
      cases h1 : b1 idx 1000 with
      | none =>
        cases h2 : b2 idx 1000 with
        | none => simp [pagerLoop, get_page, hc, h1, h2]
        | some pg =>
          rw [h1, h2] at hr
          simp at hr
      | some pg1 =>
        cases h2 : b2 idx 1000 with
        | none =>
          rw [h1, h2] at hr
          simp at hr
        | some pg2 =>
          rw [h1, h2] at hr
          simp only [Option.map_some'] at hr
          simp only [Option.some.injEq] at hr
          simp only [pagerLoop, get_page, if_pos hc, h1, h2, hr]
          exact ih _ _ _
    · simp [pagerLoop, hc]

lemma getAll_congr {α : Type} (b1 b2 : Int → Int → Option (Page α)) (fuel : Nat)
    (h1 : b1 1 1000 = b2 1 1000)
    (h : ∀ s c, Option.map Page.Resources (b1 s c) = Option.map Page.Resources (b2 s c)) :
    get_all_resources b1 fuel = get_all_resources b2 fuel := by
  cases hb : b2 1 1000 with
  | none => simp [get_all_resources, get_page, h1, hb]
  | some first =>
    simp only [get_all_resources, get_page, h1, hb]
    rw [pagerLoop_congr b1 b2 _ _ h fuel _ _ _]

lemma take_two_range_map {β : Type} (m : Nat) (f : Nat → β) :
    ((List.range (m + 2)).map f).take 2 = [f 0, f 1] := by
  rw [range_succ_map, range_succ_map]
  simp

/-! ## Claims C9, C10 -/

/-- C9: a transport error or non-2xx response on any page fetch of a
listing turns the whole run into a fatal process exit: a failing first
fetch is fatal, a successful aggregation certifies that every recorded
request succeeded, and on a concrete backend failing from page 2 on, the
multi-page listing ends fatal with no aggregate returned. -/
theorem claim_C9_fatal_abort :
    (∀ (α : Type) (bk : Int → Int → Option (Page α)) (fuel : Nat),
        bk 1 1000 = none → get_all_resources bk fuel = Outcome.fatal) ∧
    (∀ (α : Type) (bk : Int → Int → Option (Page α)) (fuel : Nat) (agg : AggPage α),
        get_all_resources bk fuel = Outcome.ok agg →
        ∀ rq ∈ agg.requests, bk rq.1 rq.2 ≠ none) ∧
    get_all_resources failsAfterPage1 10 = Outcome.fatal := by
  refine ⟨?_, ?_, by decide⟩
  · intro α bk fuel hfail
    simp [get_all_resources, get_page, hfail]
  · intro α bk fuel agg h rq hrq
    rcases hbk1 : bk 1 1000 with _ | first
    · simp only [get_all_resources, get_page, hbk1] at h
      exact Outcome.noConfusion h
    · simp only [get_all_resources, get_page, hbk1] at h
      rcases hloop : pagerLoop bk (first.totalResults.getD 0) (first.itemsPerPage.getD 1000)
          fuel (first.itemsPerPage.getD 1000 + 1) (first.Resources.getD []) [(1, 1000)] with
          ⟨allRes, rqs⟩ | _ | _
      · rw [hloop] at h
        simp only [Outcome.ok.injEq] at h
        subst h
        rcases pagerLoop_ok_requests bk _ _ fuel _ _ _ _ _ hloop rq hrq with hmem | hgood
        · have : rq = ((1 : Int), (1000 : Int)) := by simpa using hmem
          subst this
          rw [hbk1]
          exact fun hx => Option.noConfusion hx
        · obtain ⟨hcount, hne⟩ := hgood
          rw [show rq.2 = (1000 : Int) from hcount]
          exact hne
      · rw [hloop] at h
        exact Outcome.noConfusion h
      · rw [hloop] at h
        exact Outcome.noConfusion h

/-- Witness for C9 on a backend whose every request fails. -/
theorem claim_C9_fatal_abort_witness :
    downBackend 1 1000 = none ∧
    get_all_resources downBackend 5 = Outcome.fatal := by
  exact ⟨rfl, claim_C9_fatal_abort.1 Nat downBackend 5 rfl⟩

/-- C10: the pagination stride is determined solely by the first page —
the run is unchanged by any modification of later pages' metadata
(`itemsPerPage` included), as only their `Resources` are read; every
recorded request carries `count = 1000`; with the `itemsPerPage` key
absent the stride defaults to 1000; and with advertised page size
`p ≠ 1000` the requests still carry `count = 1000` while consecutive
`startIndex` values advance by `p`, so requested count and stride
disagree. -/
theorem claim_C10_stride_vs_count :
    (∀ (α : Type) (b1 b2 : Int → Int → Option (Page α)) (fuel : Nat),
        b1 1 1000 = b2 1 1000 →
        (∀ s c, Option.map Page.Resources (b1 s c) = Option.map Page.Resources (b2 s c)) →
        get_all_resources b1 fuel = get_all_resources b2 fuel) ∧
    (∀ (α : Type) (bk : Int → Int → Option (Page α)) (fuel : Nat) (agg : AggPage α),
        get_all_resources bk fuel = Outcome.ok agg →
        ∀ rq ∈ agg.requests, rq.2 = 1000) ∧
    (∀ (α : Type) (r : Nat) (items : List α) (fuel : Nat),
        (r - 1) / 1000 < fuel →
        ∃ agg : AggPage α,
          get_all_resources (synthBackendNoIpp r items) fuel = Outcome.ok agg ∧
          agg.requests = (List.range ((r - 1) / 1000 + 1)).map
            (fun k : Nat => ((1 : Int) + (k : Int) * (1000 : Int), (1000 : Int)))) ∧
    (∀ (α : Type) (r p : Nat) (items : List α) (fuel : Nat),
        1 ≤ p → p < r → (r - 1) / p < fuel →
        ∃ agg : AggPage α,
          get_all_resources (synthBackend r p items) fuel = Outcome.ok agg ∧
          agg.requests.take 2 = [((1 : Int), (1000 : Int)), ((1 : Int) + (p : Int), (1000 : Int))]) := by
  refine ⟨fun α b1 b2 fuel h1 h => getAll_congr b1 b2 fuel h1 h, ?_, ?_, ?_⟩
  · intro α bk fuel agg h rq hrq
    rcases hbk1 : bk 1 1000 with _ | first
    · simp only [get_all_resources, get_page, hbk1] at h
      exact Outcome.noConfusion h
    · simp only [get_all_resources, get_page, hbk1] at h
      rcases hloop : pagerLoop bk (first.totalResults.getD 0) (first.itemsPerPage.getD 1000)
          fuel (first.itemsPerPage.getD 1000 + 1) (first.Resources.getD []) [(1, 1000)] with
          ⟨allRes, rqs⟩ | _ | _
      · rw [hloop] at h
        simp only [Outcome.ok.injEq] at h
        subst h
        rcases pagerLoop_ok_requests bk _ _ fuel _ _ _ _ _ hloop rq hrq with hmem | hgood
        · have : rq = ((1 : Int), (1000 : Int)) := by simpa using hmem
          subst this
          rfl
        · exact hgood.1
      · rw [hloop] at h
        exact Outcome.noConfusion h
      · rw [hloop] at h
        exact Outcome.noConfusion h
  · intro α r items fuel hf
    refine ⟨_, getAll_run (synthBackendNoIpp r items)
        (fun s => { schemas := some []
                    totalResults := some (r : Int)
                    itemsPerPage := none
                    startIndex := some s
                    Resources := some ((items.drop (s - 1).toNat).take 1000) })
        (fun s c => rfl) r 1000 (by omega) rfl (by norm_num) fuel hf, ?_⟩
    norm_num
  · intro α r p items fuel hp hpr hf
    have hn : 1 ≤ (r - 1) / p := (Nat.one_le_div_iff (by omega)).mpr (by omega)
    obtain ⟨m, hm⟩ : ∃ m, (r - 1) / p = m + 1 := ⟨(r - 1) / p - 1, by omega⟩
    refine ⟨_, getAll_synth r p hp items fuel hf, ?_⟩
    rw [show ({ schemas := []
                totalResults := (r : Int)
                Resources := items.take p ++ (List.range ((r - 1) / p)).flatMap
                    (fun k : Nat => (items.drop (p + k * p)).take p)
                itemsPerPage := ((items.take p ++ (List.range ((r - 1) / p)).flatMap
                    (fun k : Nat => (items.drop (p + k * p)).take p)).length : Int)
                startIndex := 1
                requests := (List.range ((r - 1) / p + 1)).map
                  (fun k : Nat => ((1 : Int) + (k : Int) * (p : Int), (1000 : Int))) } :
          AggPage α).requests = (List.range (m + 2)).map
            (fun k : Nat => ((1 : Int) + (k : Int) * (p : Int), (1000 : Int))) from by
      rw [hm]]
    rw [take_two_range_map]
    norm_num

/-- Witness for C10 on a backend with the `itemsPerPage` key absent:
stride defaults to 1000 (requests at 1 and 1001 for 1500 results). -/
theorem claim_C10_stride_vs_count_witness :
    (1500 - 1) / 1000 < 3 ∧
    ∃ agg : AggPage Nat,
      get_all_resources (synthBackendNoIpp 1500 (List.range 1500)) 3 = Outcome.ok agg ∧
      agg.requests = [((1 : Int), (1000 : Int)), (1001, 1000)] := by
  refine ⟨by omega, ?_⟩
  obtain ⟨agg, h1, h2⟩ :=
    claim_C10_stride_vs_count.2.2.1 Nat 1500 (List.range 1500) 3 (by omega)
  refine ⟨agg, h1, ?_⟩
  rw [h2]
  decide

end ScimTool
